import Mathlib

/-!
Verification of the brewol coding-agent repository against its
natural-language specification.  Go code is shallowly embedded: Go strings
are modelled as `List Char` (one entry per byte; faithful for the ASCII
data handled here), Go `int` as `Int`, Go `float64` as `ℚ` (all
arithmetic in the claims stays inside exactly representable dyadic
values, where the two agree), fallible functions as `Except`/`Option`.
-/

namespace Brewol

/-- Converts a Lean string literal to the `List Char` model of a Go string. -/
def str (s : String) : List Char := s.data

/-- Models `os.PathSeparator` on Unix. -/
def pathSep : Char := '/'

/-- Models Go `filepath.IsAbs` on Unix: the path starts with a separator. -/
def goIsAbs (path : List Char) : Bool :=
  match path with
  | [] => false
  | c :: _ => c = pathSep

/-- Splits a path at every separator, keeping empty components, as Go's
`filepath.Clean` scanner does implicitly. -/
def splitSep : List Char → List (List Char)
  | [] => [[]]
  | c :: rest =>
    match splitSep rest with
    | [] => [[c]]
    | h :: t => if c = pathSep then [] :: h :: t else (c :: h) :: t

/-- One step of the component stack underlying Go `filepath.Clean`
(path/filepath, Plan-9 cleanname): empty and `.` components are dropped;
`..` pops a regular component, is dropped at the root when `rooted`, and
accumulates otherwise; a regular component is pushed.  The stack is kept
in reverse order. -/
def cleanStep (rooted : Bool) (st : List (List Char)) (comp : List Char) : List (List Char) :=
  if comp = [] ∨ comp = str "." then st
  else if comp = str ".." then
    match st with
    | [] => if rooted then [] else [str ".."]
    | top :: rest => if top = str ".." then comp :: st else rest
  else comp :: st

/-- Models Go `filepath.Clean` for Unix paths: lexical simplification of
`.`, `..`, and repeated separators; the empty path cleans to `.`. -/
def cleanGo (path : List Char) : List Char :=
  if path = [] then str "."
  else
    let rooted := goIsAbs path
    let st := (splitSep path).foldl (cleanStep rooted) []
    let body := List.intercalate [pathSep] st.reverse
    if rooted then pathSep :: body
    else if body = [] then str "." else body

/-- Models Go `filepath.Join` for two elements: non-empty elements are
joined with the separator and the result is cleaned; all-empty input
yields the empty path. -/
def joinGo (a b : List Char) : List Char :=
  if a = [] ∧ b = [] then []
  else if a = [] then cleanGo b
  else if b = [] then cleanGo a
  else cleanGo (a ++ [pathSep] ++ b)

/-- Models `resolvePath` from internal/tools/filesystem.go: resolves a
candidate against the workspace root and rejects any result that is
neither the cleaned root nor under it (checked with
`strings.HasPrefix(cleanPath, cleanRoot+separator)`).  The Go error
message interpolates the offending path; the message text is irrelevant
to the claims and is kept constant here. -/
def resolvePath (root path : List Char) : Except (List Char) (List Char) :=
  if goIsAbs path then
    let cleanPath := cleanGo path
    let cleanRoot := cleanGo root
    if ¬ (List.isPrefixOf (cleanRoot ++ [pathSep]) cleanPath) ∧ cleanPath ≠ cleanRoot then
      .error (str "path traversal blocked: path is outside workspace root")
    else
      .ok cleanPath
  else
    let joined := joinGo root path
    let cleanPath := cleanGo joined
    let cleanRoot := cleanGo root
    if ¬ (List.isPrefixOf (cleanRoot ++ [pathSep]) cleanPath) ∧ cleanPath ≠ cleanRoot then
      .error (str "path traversal blocked: path resolves outside workspace root")
    else
      .ok cleanPath

theorem goIsAbs_iff (l : List Char) : goIsAbs l = true ↔ ∃ t, l = pathSep :: t := by
  cases l <;> simp [goIsAbs, List.cons_eq_cons, eq_comm]

theorem cleanGo_isAbs (root : List Char) (h : goIsAbs root = true) :
    goIsAbs (cleanGo root) = true := by
  rcases (goIsAbs_iff root).1 h with ⟨t, rfl⟩
  simp only [cleanGo, reduceCtorEq, if_neg, h]
  simp [goIsAbs]

theorem resolvePath_ok_sound (root path p : List Char)
    (h : resolvePath root path = .ok p) :
    p = cleanGo root ∨ List.isPrefixOf (cleanGo root ++ [pathSep]) p = true := by
  unfold resolvePath at h
  dsimp only at h
  split at h
  · split at h
    · cases h
    · rename_i hcond
      injection h with h'
      subst h'
      by_cases heq : cleanGo path = cleanGo root
      · exact Or.inl heq
      · refine Or.inr ?_
        by_contra hp
        exact hcond ⟨fun hpp => hp hpp, heq⟩
  · split at h
    · cases h
    · rename_i hcond
      injection h with h'
      subst h'
      by_cases heq : cleanGo (joinGo root path) = cleanGo root
      · exact Or.inl heq
      · refine Or.inr ?_
        by_contra hp
        exact hcond ⟨fun hpp => hp hpp, heq⟩

theorem resolvePath_ok_isAbs (root path p : List Char)
    (hroot : goIsAbs root = true) (h : resolvePath root path = .ok p) :
    goIsAbs p = true := by
  have hcr : goIsAbs (cleanGo root) = true := cleanGo_isAbs root hroot
  rcases resolvePath_ok_sound root path p h with rfl | hpref
  · exact hcr
  · rcases (goIsAbs_iff _).1 hcr with ⟨t, ht⟩
    rcases List.isPrefixOf_iff_prefix.1 hpref with ⟨rest, hrest⟩
    rw [goIsAbs_iff]
    exact ⟨t ++ [pathSep] ++ rest, by rw [← hrest, ht]; simp⟩

/-- C1: for every absolute workspace root (the spec fixes the workspace to an
absolute directory path) and every candidate path, `resolvePath` either fails
or returns an absolute path that equals the cleaned root or has the cleaned
root followed by the separator as a prefix; the root itself, `.`, and
`subdir/..` under root `/tmp/ws` all succeed resolving to the root, while
`subdir/../../etc/passwd` is rejected. -/
theorem claim_C1_resolvePath_containment (root path p : List Char)
    (hroot : goIsAbs root = true)
    (hok : resolvePath root path = .ok p) :
    (goIsAbs p = true ∧
      (p = cleanGo root ∨ List.isPrefixOf (cleanGo root ++ [pathSep]) p = true)) ∧
    resolvePath (str "/tmp/ws") (str "/tmp/ws") = .ok (str "/tmp/ws") ∧
    resolvePath (str "/tmp/ws") (str ".") = .ok (str "/tmp/ws") ∧
    resolvePath (str "/tmp/ws") (str "subdir/..") = .ok (str "/tmp/ws") ∧
    (resolvePath (str "/tmp/ws") (str "subdir/../../etc/passwd")).isOk = false := by
  refine ⟨⟨resolvePath_ok_isAbs root path p hroot hok,
    resolvePath_ok_sound root path p hok⟩, ?_, ?_, ?_, ?_⟩
  · rfl
  · rfl
  · rfl
  · rfl

/-- Witness for C1 at root `/tmp/ws` and candidate `subdir/..`. -/
theorem claim_C1_witness :
    goIsAbs (str "/tmp/ws") = true ∧
    resolvePath (str "/tmp/ws") (str "subdir/..") = .ok (str "/tmp/ws") ∧
    (goIsAbs (str "/tmp/ws") = true ∧
      (str "/tmp/ws" = cleanGo (str "/tmp/ws") ∨
        List.isPrefixOf (cleanGo (str "/tmp/ws") ++ [pathSep]) (str "/tmp/ws") = true)) ∧
    resolvePath (str "/tmp/ws") (str "/tmp/ws") = .ok (str "/tmp/ws") ∧
    resolvePath (str "/tmp/ws") (str ".") = .ok (str "/tmp/ws") ∧
    resolvePath (str "/tmp/ws") (str "subdir/..") = .ok (str "/tmp/ws") ∧
    (resolvePath (str "/tmp/ws") (str "subdir/../../etc/passwd")).isOk = false :=
  ⟨by decide, by rfl,
    claim_C1_resolvePath_containment (str "/tmp/ws") (str "subdir/..") (str "/tmp/ws")
      (by decide) (by rfl)⟩

/-- Models Go `strings.Contains(s, sub)`: some suffix of `s` starts with
`sub`. -/
def goContains (s sub : List Char) : Bool :=
  match s with
  | [] => List.isPrefixOf sub []
  | c :: t => List.isPrefixOf sub (c :: t) || goContains t sub

/-- Models Go's decimal rendering of an integer (`fmt` `%d`). -/
def goIntStr (n : Int) : List Char := (toString n).data

/-- Splits a character list at every occurrence of `sep`, keeping empty
parts, as Go `strings.Split` does. -/
def splitChar (sep : Char) : List Char → List (List Char)
  | [] => [[]]
  | c :: rest =>
    match splitChar sep rest with
    | [] => [[c]]
    | h :: t => if c = sep then [] :: h :: t else (c :: h) :: t

/-- The newline character. -/
def nl : Char := Char.ofNat 10

namespace Engine

/-- Substrings whose presence in an error message classifies it as a
rate-limit error in `Engine.run` (internal/engine/state.go). -/
def rateLimitMarkers : List (List Char) :=
  [str "403", str "429", str "limit", str "quota", str "rate"]

/-- Models the `isRateLimit` classification in `Engine.run`: a disjunction of
case-sensitive `strings.Contains` checks on the error message. -/
def isRateLimitError (msg : List Char) : Bool :=
  rateLimitMarkers.any (fun m => goContains msg m)

/-- Reaction of `Engine.run` to a failed cycle: either send a `CycleUpdate`
with the given message and call `Pause()`, or send a retry update and sleep
for the given backoff seconds before continuing. -/
inductive ErrorReaction where
  | pauseNow (updateMessage : List Char)
  | backoffRetry (seconds : Int)
deriving DecidableEq

/-- Message of the update emitted on the rate-limit path of `Engine.run`. -/
def rateLimitedMessage : List Char :=
  str "RATE LIMITED - Auto-pausing. Use /resume when ready."

/-- Message of the update emitted when the consecutive-error threshold is
reached (`fmt.Sprintf` interpolation of the count). -/
def tooManyErrorsMessage (n : Int) : List Char :=
  str "Too many errors (" ++ (toString n).data ++ str "). Auto-pausing. Use /resume to retry."

/-- Models the error-handling block of `Engine.run` for a non-cancellation
cycle error: the consecutive-error counter is incremented first
(`e.errorCount++`), then the message is classified; a rate-limit error
pauses with the RATE LIMITED update, a count of 3 or more pauses with the
diagnostic update, and otherwise the loop retries after `n·n` seconds.
Returns the new counter value and the reaction taken. -/
def handleCycleError (errorCount : Int) (msg : List Char) : Int × ErrorReaction :=
  let n := errorCount + 1
  if isRateLimitError msg then (n, .pauseNow rateLimitedMessage)
  else if n ≥ 3 then (n, .pauseNow (tooManyErrorsMessage n))
  else (n, .backoffRetry (n * n))

/-- C2 counterexample: on a rate-limit error (message containing `429`)
arriving with a zero consecutive-error counter, the engine emits the RATE
LIMITED pause, but the counter stored back is 1, not 0 — the increment
happens before classification, contradicting the claim that the counter is
not incremented by a rate-limit error. -/
theorem claim_C2_counterexample :
    (handleCycleError 0 (str "429 too many requests")).2 =
      .pauseNow rateLimitedMessage ∧
    (handleCycleError 0 (str "429 too many requests")).1 ≠ 0 := by
  constructor
  · rfl
  · decide

/-- C2 (amended): for every error whose message contains any of the
case-sensitive substrings 403, 429, limit, quota, rate, the engine emits the
RATE LIMITED update and pauses, and the consecutive-error counter IS
incremented by exactly one by that error (the increment precedes
classification); the incremented value is not compared against the hard
threshold of 3 on this path. -/
theorem claim_C2_rate_limit_pause (errorCount : Int) (msg : List Char)
    (h : isRateLimitError msg = true) :
    handleCycleError errorCount msg = (errorCount + 1, .pauseNow rateLimitedMessage) ∧
    List.isPrefixOf (str "RATE LIMITED") rateLimitedMessage = true := by
  refine ⟨?_, by decide⟩
  unfold handleCycleError
  simp [h]

/-- Witness for C2 (amended) at counter 0 and message `429 too many requests`. -/
theorem claim_C2_witness :
    isRateLimitError (str "429 too many requests") = true ∧
    (handleCycleError 0 (str "429 too many requests") =
      ((0 : Int) + 1, .pauseNow rateLimitedMessage) ∧
      List.isPrefixOf (str "RATE LIMITED") rateLimitedMessage = true) :=
  ⟨by decide, claim_C2_rate_limit_pause 0 (str "429 too many requests") (by decide)⟩

end Engine

namespace Tools

/-- Models a Go `error` value by its message. -/
structure GoError where
  message : List Char
deriving DecidableEq

/-- Models the `ToolResult` struct of internal/tools/registry.go.  Wall-clock
`Duration` is not modelled and is kept at 0. -/
structure ToolResult where
  name : List Char
  output : List Char
  error : Option GoError
  duration : ℚ
  exitCode : Int
deriving DecidableEq

/-- Models the decoded `fsReadArgs` of internal/tools/filesystem.go. -/
structure FsReadArgs where
  path : List Char
  startLine : Int
  endLine : Int
deriving DecidableEq

/-- Oracles for the effectful steps of `FSReadTool.Execute`: the outcome of
`json.Unmarshal` on the raw arguments, the outcome of `os.Open` plus the
scanner (the file's lines on success), and the value of `scanner.Err()`
after the read loop.  Context cancellation is not modelled (the cancelled
branch returns result and error the same way the other error branches do). -/
structure FsReadWorld where
  unmarshal : Except GoError FsReadArgs
  openFile : List Char → Except GoError (List (List Char))
  scanErr : List Char → Option GoError

/-- Models the `fmt.Fprintf(&output, "%4d: %s\n", lineNum, text)` line
format of `FSReadTool.Execute`: the line number right-aligned in width 4. -/
def fsReadLine (lineNum : Int) (text : List Char) : List Char :=
  let s := goIntStr lineNum
  List.replicate (4 - s.length) ' ' ++ s ++ str ": " ++ text ++ [Char.ofNat 10]

/-- Models the scan loop of `FSReadTool.Execute`: 1-indexed lines, lines
before `start_line` skipped when it is positive, the loop broken after
`end_line` when it is positive.  `lineNum0` is the count of lines already
consumed. -/
def fsReadLoop (a : FsReadArgs) (lineNum0 : Int) : List (List Char) → List Char
  | [] => []
  | l :: rest =>
    let lineNum := lineNum0 + 1
    if a.startLine > 0 ∧ lineNum < a.startLine then fsReadLoop a lineNum rest
    else if a.endLine > 0 ∧ lineNum > a.endLine then []
    else fsReadLine lineNum l ++ fsReadLoop a lineNum rest

/-- Name of the fs_read tool. -/
def fsReadToolName : List Char := str "fs_read"

/-- Models `FSReadTool.Execute` (internal/tools/filesystem.go): on any
failure — argument decoding, path resolution, open, or scan — it returns a
non-nil `ToolResult` carrying the error AND the error itself; on success it
returns the result and a nil error.  The returned pair is
(result pointer, error), each optional. -/
def fsReadExecute (root : List Char) (w : FsReadWorld) :
    Option ToolResult × Option GoError :=
  match w.unmarshal with
  | .error e =>
    (some { name := fsReadToolName, output := [], error := some e,
            duration := 0, exitCode := 0 }, some e)
  | .ok a =>
    match resolvePath root a.path with
    | .error emsg =>
      let e : GoError := ⟨emsg⟩
      (some { name := fsReadToolName, output := [], error := some e,
              duration := 0, exitCode := 0 }, some e)
    | .ok target =>
      match w.openFile target with
      | .error e =>
        (some { name := fsReadToolName, output := [], error := some e,
                duration := 0, exitCode := 0 }, some e)
      | .ok lines =>
        match w.scanErr target with
        | some e =>
          (some { name := fsReadToolName, output := [], error := some e,
                  duration := 0, exitCode := 0 }, some e)
        | none =>
          (some { name := fsReadToolName, output := fsReadLoop a 0 lines,
                  error := none, duration := 0, exitCode := 0 }, none)

/-- Models `Registry.Execute` (internal/tools/registry.go) for a registry
carrying the fs_read tool: an unregistered name yields a nil result and a
non-nil `unknown tool` error; a registered tool's `Execute` is delegated to.
The other built-in tools follow the same returned-pair discipline as
fs_read (every error return in filesystem.go, search.go and exec.go hands
back the partially-filled result together with the error). -/
def registryExecute (name root : List Char) (w : FsReadWorld) :
    Option ToolResult × Option GoError :=
  if name = fsReadToolName then fsReadExecute root w
  else (none, some ⟨str "unknown tool: " ++ name⟩)

/-- World in which the decoded arguments carry the escaping relative path
`../x`, so `resolvePath` rejects them. -/
def c3TraversalWorld : FsReadWorld :=
  { unmarshal := .ok { path := str "../x", startLine := 0, endLine := 0 },
    openFile := fun _ => .ok [],
    scanErr := fun _ => none }

/-- C3 counterexample: executing fs_read with arguments whose path escapes
the workspace root returns BOTH a non-nil ToolResult and a non-nil error
(the Go code returns `&ToolResult{..., Error: err}, err`), contradicting
the claim that exactly one of the two is non-nil. -/
theorem claim_C3_counterexample :
    (registryExecute fsReadToolName (str "/ws") c3TraversalWorld).1.isSome = true ∧
    (registryExecute fsReadToolName (str "/ws") c3TraversalWorld).2.isSome = true := by
  constructor <;> rfl

/-- C3 (amended): tool `Execute` never returns both a nil result and a nil
error, but it may return both non-nil: `FSReadTool.Execute` always returns a
non-nil result, and the returned error is exactly the `Error` field stored
in that result (non-nil precisely on failure); `Registry.Execute` for an
unregistered name returns a nil result with a non-nil error. -/
theorem claim_C3_execute_result_error_discipline (name root : List Char) (w : FsReadWorld) :
    ((fsReadExecute root w).1.isSome = true ∧
      (fsReadExecute root w).2 = Option.bind (fsReadExecute root w).1 ToolResult.error) ∧
    (¬ ((registryExecute name root w).1 = none ∧ (registryExecute name root w).2 = none)) ∧
    registryExecute (str "nope") root w = (none, some ⟨str "unknown tool: " ++ str "nope"⟩) := by
  have hfs : (fsReadExecute root w).1.isSome = true ∧
      (fsReadExecute root w).2 = Option.bind (fsReadExecute root w).1 ToolResult.error := by
    cases hu : w.unmarshal with
    | error e => simp [fsReadExecute, hu]
    | ok a =>
      cases hr : resolvePath root a.path with
      | error m => simp [fsReadExecute, hu, hr]
      | ok target =>
        cases ho : w.openFile target with
        | error e => simp [fsReadExecute, hu, hr, ho]
        | ok lines =>
          cases hs : w.scanErr target with
          | none => simp [fsReadExecute, hu, hr, ho, hs]
          | some e => simp [fsReadExecute, hu, hr, ho, hs]
  refine ⟨hfs, ?_, ?_⟩
  · unfold registryExecute
    split
    · intro hcontra
      rw [hcontra.1] at hfs
      simp at hfs
    · intro hcontra
      cases hcontra.2
  · rfl

mutual

/-- Abstract file-system tree: a file with a size, or a directory with a
forest of children (kept in the lexical order the Go walkers visit). -/
inductive FsTree where
  | file (name : List Char) (size : Int)
  | dir (name : List Char) (children : FsForest)

/-- Children of a directory node. -/
inductive FsForest where
  | nil
  | cons (t : FsTree) (rest : FsForest)

end

/-- Models `strings.Repeat("  ", depth)`, the indent prefix of fs_list. -/
def indentOf (depth : Nat) : List Char := List.flatten (List.replicate depth (str "  "))

/-- Line emitted by `FSListTool.Execute` for a directory entry
(`"%s%s/\n"`) or a file entry (`"%s%s (%d bytes)\n"`); the trailing newline
is left to the joining of lines. -/
def fsEntryLine (depth : Nat) : FsTree → List Char
  | .dir name _ => indentOf depth ++ name ++ [pathSep]
  | .file name size => indentOf depth ++ name ++ str " (" ++ goIntStr size ++ str " bytes)"

mutual

/-- Models the `filepath.WalkDir` callback of `FSListTool.Execute` below the
walked root: `depth` is the separator count of the entry's path relative to
the root (children of the root are at depth 0).  An entry deeper than a
non-negative `maxDepth` is skipped — `filepath.SkipDir` for a directory,
plain skip for a file; no directory name is ever consulted. -/
def fsListWalkTree (maxDepth : Int) (depth : Nat) : FsTree → List (List Char)
  | .file name size =>
    if 0 ≤ maxDepth ∧ maxDepth < (depth : Int) then []
    else [fsEntryLine depth (.file name size)]
  | .dir name children =>
    if 0 ≤ maxDepth ∧ maxDepth < (depth : Int) then []
    else fsEntryLine depth (.dir name children) :: fsListWalkForest maxDepth (depth + 1) children

/-- Walks a forest of siblings at the given depth. -/
def fsListWalkForest (maxDepth : Int) (depth : Nat) : FsForest → List (List Char)
  | .nil => []
  | .cons t rest => fsListWalkTree maxDepth depth t ++ fsListWalkForest maxDepth depth rest

end

/-- Models `FSListTool.Execute` on a resolved target: a zero depth argument
defaults to 1; the root itself is visited at depth 0, and so are its
immediate children (`strings.Count` of their relative path is 0); deeper
entries count one per separator.  Returns the emitted lines. -/
def fsListExecute (depthArg : Int) (root : FsTree) : List (List Char) :=
  let maxDepth := if depthArg = 0 then 1 else depthArg
  match root with
  | .file name size => [fsEntryLine 0 (.file name size)]
  | .dir name children =>
    fsEntryLine 0 (.dir name children) :: fsListWalkForest maxDepth 0 children

/-- Directory names skipped by the pure-Go search walker of
`RgSearchTool.executeGoSearch` (internal/tools/search.go). -/
def skipDirNames : List (List Char) :=
  [str ".git", str "node_modules", str "vendor", str "__pycache__"]

mutual

/-- Models the `filepath.Walk` traversal of `RgSearchTool.executeGoSearch`:
directories whose name is in `skipDirNames` answer `filepath.SkipDir`, so
nothing under them is searched.  Returns the component paths (from the
walked root, inclusive) of every file handed to the regex search. -/
def searchVisitsTree : FsTree → List (List (List Char))
  | .file name _ => [[name]]
  | .dir name children =>
    if name ∈ skipDirNames then []
    else (searchVisitsForest children).map (fun p => name :: p)

/-- Search-walk over a forest of siblings. -/
def searchVisitsForest : FsForest → List (List (List Char))
  | .nil => []
  | .cons t rest => searchVisitsTree t ++ searchVisitsForest rest

end

/-- Workspace containing a `.git` directory with one file inside it. -/
def c8ExampleTree : FsTree :=
  .dir (str "ws") (.cons (.dir (str ".git") (.cons (.file (str "config") 5) .nil)) .nil)

/-- C8 counterexample: `FSListTool.Execute` at its default depth on a
workspace containing `.git/config` emits the `.git/` entry and the
`config (5 bytes)` line inside it — fs_list does not skip `.git`,
`node_modules`, `vendor` or `__pycache__` (no directory-name check exists
in its walk), contradicting the claim. -/
theorem claim_C8_counterexample :
    fsListExecute 1 c8ExampleTree =
      [str "ws/", str ".git/", str "  config (5 bytes)"] := by
  rfl

mutual

/-- Every path handed to the search by the fallback walker is non-empty. -/
theorem searchVisitsTree_ne_nil (t : FsTree) :
    ∀ p ∈ searchVisitsTree t, p ≠ [] := by
  intro p hp
  cases t with
  | file name size =>
    simp only [searchVisitsTree, List.mem_singleton] at hp
    subst hp
    simp
  | dir name children =>
    simp only [searchVisitsTree] at hp
    split at hp
    · cases hp
    · rcases List.mem_map.1 hp with ⟨q, _, rfl⟩
      simp

/-- Every path handed to the search by the fallback walker over a forest is
non-empty. -/
theorem searchVisitsForest_ne_nil (f : FsForest) :
    ∀ p ∈ searchVisitsForest f, p ≠ [] := by
  intro p hp
  cases f with
  | nil => cases hp
  | cons t rest =>
    rcases List.mem_append.1 hp with h | h
    · exact searchVisitsTree_ne_nil t p h
    · exact searchVisitsForest_ne_nil rest p h

end

mutual

/-- No ancestor directory component of a searched file is a skipped name. -/
theorem searchVisitsTree_no_skip (t : FsTree) :
    ∀ p ∈ searchVisitsTree t, ∀ c ∈ p.dropLast, c ∉ skipDirNames := by
  intro p hp
  cases t with
  | file name size =>
    simp only [searchVisitsTree, List.mem_singleton] at hp
    subst hp
    simp
  | dir name children =>
    simp only [searchVisitsTree] at hp
    split at hp
    · cases hp
    · rename_i hname
      rcases List.mem_map.1 hp with ⟨q, hq, rfl⟩
      have hqne : q ≠ [] := searchVisitsForest_ne_nil children q hq
      intro c hc
      rw [List.dropLast_cons_of_ne_nil hqne] at hc
      rcases List.mem_cons.1 hc with rfl | hc'
      · exact hname
      · exact searchVisitsForest_no_skip children q hq c hc'

/-- Forest version of `searchVisitsTree_no_skip`. -/
theorem searchVisitsForest_no_skip (f : FsForest) :
    ∀ p ∈ searchVisitsForest f, ∀ c ∈ p.dropLast, c ∉ skipDirNames := by
  intro p hp
  cases f with
  | nil => cases hp
  | cons t rest =>
    rcases List.mem_append.1 hp with h | h
    · exact searchVisitsTree_no_skip t p h
    · exact searchVisitsForest_no_skip rest p h

end

/-- C8 (amended): the skip-dir rule on `.git`, `node_modules`, `vendor`,
`__pycache__` belongs to the rg_search fallback walker — no file under a
directory with one of those names is ever searched — while fs_list performs
no directory-name check: on a workspace with `.git/config` it emits the
`.git/` entry and the `config (5 bytes)` file line inside it, formatting
files it visits as `name (bytes)` lines. -/
theorem claim_C8_skip_dirs (t : FsTree) (p : List (List Char)) (c : List Char)
    (hp : p ∈ searchVisitsTree t) (hc : c ∈ p.dropLast) :
    c ∉ skipDirNames ∧
    fsListExecute 1 c8ExampleTree =
      [str "ws/", str ".git/", str "  config (5 bytes)"] ∧
    fsEntryLine 1 (.file (str "config") 5) = str "  config (5 bytes)" :=
  ⟨searchVisitsTree_no_skip t p hp c hc, rfl, rfl⟩

/-- Witness for C8 (amended): a tree whose `src` directory contains a file
next to a `node_modules` directory; the path `[src, main.go]` is visited
and its ancestor component `src` is not a skipped name. -/
theorem claim_C8_witness :
    ([str "src", str "main.go"] ∈ searchVisitsTree
      (FsTree.dir (str "src")
        (.cons (.file (str "main.go") 7)
          (.cons (.dir (str "node_modules") (.cons (.file (str "x.js") 1) .nil)) .nil)))) ∧
    (str "src" ∈ [str "src", str "main.go"].dropLast) ∧
    str "src" ∉ skipDirNames :=
  ⟨by decide, by decide,
    (claim_C8_skip_dirs
      (FsTree.dir (str "src")
        (.cons (.file (str "main.go") 7)
          (.cons (.dir (str "node_modules") (.cons (.file (str "x.js") 1) .nil)) .nil)))
      [str "src", str "main.go"] (str "src") (by decide) (by decide)).1⟩

end Tools

namespace Ctx

/-- Default context window size (internal/context, part_009). -/
def defaultNumCtx : Int := 8192

/-- Default high-watermark fraction 0.80 (source constant
`DefaultHighWatermark`; Go `float64` modelled as an exact rational). -/
def defaultHighWatermark : ℚ := 4 / 5

/-- Default low-watermark fraction 0.60 (source constant
`DefaultLowWatermark`). -/
def defaultLowWatermark : ℚ := 3 / 5

/-- Default reserved output tokens. -/
def defaultReserveOutput : Int := 2048

/-- Default number of transcript turns to keep (`DefaultMaxTranscriptLen`). -/
def defaultMaxTranscriptLen : Int := 5

/-- Models `BudgetConfig`.  The Go field names `HighWatermarkRatio` and
`LowWatermarkRatio` (float64) are rendered as `highWatermarkFrac` and
`lowWatermarkFrac` (exact rationals); every ratio appearing in the claims
is a dyadic value on which float64 and rational arithmetic agree. -/
structure BudgetConfig where
  numCtx : Int
  highWatermarkFrac : ℚ
  lowWatermarkFrac : ℚ
  reserveOutputTokens : Int
  maxTranscriptTurns : Int
deriving DecidableEq

/-- Models the clamping performed by `NewBudgetManager`: each invalid field
is replaced by its default, in source order. -/
def newBudgetManager (cfg : BudgetConfig) : BudgetConfig :=
  let cfg := if cfg.numCtx ≤ 0 then { cfg with numCtx := defaultNumCtx } else cfg
  let cfg := if cfg.highWatermarkFrac ≤ 0 ∨ cfg.highWatermarkFrac > 1 then
    { cfg with highWatermarkFrac := defaultHighWatermark } else cfg
  let cfg := if cfg.lowWatermarkFrac ≤ 0 ∨ cfg.lowWatermarkFrac ≥ cfg.highWatermarkFrac then
    { cfg with lowWatermarkFrac := defaultLowWatermark } else cfg
  let cfg := if cfg.reserveOutputTokens ≤ 0 then
    { cfg with reserveOutputTokens := defaultReserveOutput } else cfg
  if cfg.maxTranscriptTurns ≤ 0 then
    { cfg with maxTranscriptTurns := defaultMaxTranscriptLen } else cfg

/-- Models Go's `int(x)` conversion of a `float64`: truncation toward zero,
expressed on the rational value. -/
def goInt (q : ℚ) : Int := q.num.tdiv q.den

/-- Models the `BudgetState` struct. -/
structure BudgetState where
  numCtx : Int
  highWatermark : Int
  lowWatermark : Int
  availableTokens : Int
  lastPromptTokens : Int
  lastEvalTokens : Int
  usageFrac : ℚ
  needsCompaction : Bool
deriving DecidableEq

/-- Models `BudgetManager.GetState` for a manager whose configuration is
`cfg` and whose `UpdateMetrics` last stored the given token counts. -/
def getState (cfg : BudgetConfig) (lastPromptTokens lastEvalTokens : Int) : BudgetState :=
  let highWatermark := goInt ((cfg.numCtx : ℚ) * cfg.highWatermarkFrac)
  let lowWatermark := goInt ((cfg.numCtx : ℚ) * cfg.lowWatermarkFrac)
  { numCtx := cfg.numCtx
    highWatermark := highWatermark
    lowWatermark := lowWatermark
    availableTokens := cfg.numCtx - lastPromptTokens - cfg.reserveOutputTokens
    lastPromptTokens := lastPromptTokens
    lastEvalTokens := lastEvalTokens
    usageFrac := if cfg.numCtx > 0 then (lastPromptTokens : ℚ) / (cfg.numCtx : ℚ) else 0
    needsCompaction := decide (highWatermark ≤ lastPromptTokens) }

/-- Models `BudgetManager.TokensToFree`: distance from the last prompt-token
count down to the low-watermark target, clamped at zero. -/
def tokensToFree (cfg : BudgetConfig) (lastPromptTokens : Int) : Int :=
  let target := goInt ((cfg.numCtx : ℚ) * cfg.lowWatermarkFrac)
  if lastPromptTokens ≤ target then 0 else lastPromptTokens - target

theorem goInt_eq_floor (q : ℚ) (h : 0 ≤ q) : goInt q = ⌊q⌋ := by
  rw [Rat.floor_def, goInt]
  exact Int.tdiv_eq_ediv (by exact_mod_cast Rat.num_nonneg.mpr h) (by positivity)

theorem goInt_nonneg (q : ℚ) (h : 0 ≤ q) : 0 ≤ goInt q :=
  Int.tdiv_nonneg (by exact_mod_cast Rat.num_nonneg.mpr h) (by positivity)

theorem goInt_mono (q r : ℚ) (hq : 0 ≤ q) (h : q ≤ r) : goInt q ≤ goInt r := by
  rw [goInt_eq_floor q hq, goInt_eq_floor r (le_trans hq h)]
  exact Int.floor_le_floor h

theorem goInt_le_int (n : Int) (q : ℚ) (h : 0 ≤ q) (hle : q ≤ (n : ℚ)) : goInt q ≤ n := by
  have := goInt_mono q ((n : ℚ)) h hle
  rwa [goInt_eq_floor ((n : ℚ)) (le_trans h hle), Int.floor_intCast] at this

theorem nBM_numCtx (cfg : BudgetConfig) :
    (newBudgetManager cfg).numCtx =
      if cfg.numCtx ≤ 0 then defaultNumCtx else cfg.numCtx := by
  unfold newBudgetManager
  dsimp only
  split_ifs <;> rfl

theorem nBM_high (cfg : BudgetConfig) :
    (newBudgetManager cfg).highWatermarkFrac =
      if cfg.highWatermarkFrac ≤ 0 ∨ cfg.highWatermarkFrac > 1 then
        defaultHighWatermark else cfg.highWatermarkFrac := by
  unfold newBudgetManager
  dsimp only
  split_ifs <;> rfl

theorem nBM_low (cfg : BudgetConfig) :
    (newBudgetManager cfg).lowWatermarkFrac =
      if cfg.lowWatermarkFrac ≤ 0 ∨
          cfg.lowWatermarkFrac ≥ (newBudgetManager cfg).highWatermarkFrac then
        defaultLowWatermark else cfg.lowWatermarkFrac := by
  rw [nBM_high]
  unfold newBudgetManager
  dsimp only
  split_ifs <;> rfl

theorem nBM_reserve (cfg : BudgetConfig) :
    (newBudgetManager cfg).reserveOutputTokens =
      if cfg.reserveOutputTokens ≤ 0 then defaultReserveOutput
      else cfg.reserveOutputTokens := by
  unfold newBudgetManager
  dsimp only
  split_ifs <;> rfl

theorem nBM_turns (cfg : BudgetConfig) :
    (newBudgetManager cfg).maxTranscriptTurns =
      if cfg.maxTranscriptTurns ≤ 0 then defaultMaxTranscriptLen
      else cfg.maxTranscriptTurns := by
  unfold newBudgetManager
  dsimp only
  split_ifs <;> rfl

theorem newBudgetManager_valid (cfg : BudgetConfig) :
    0 < (newBudgetManager cfg).numCtx ∧
    0 < (newBudgetManager cfg).highWatermarkFrac ∧
    (newBudgetManager cfg).highWatermarkFrac ≤ 1 ∧
    0 < (newBudgetManager cfg).lowWatermarkFrac ∧
    (newBudgetManager cfg).lowWatermarkFrac ≤ 1 ∧
    0 < (newBudgetManager cfg).reserveOutputTokens ∧
    0 < (newBudgetManager cfg).maxTranscriptTurns := by
  have hhigh : 0 < (newBudgetManager cfg).highWatermarkFrac ∧
      (newBudgetManager cfg).highWatermarkFrac ≤ 1 := by
    rw [nBM_high]
    split_ifs with h
    · constructor <;> norm_num [defaultHighWatermark]
    · push_neg at h
      exact ⟨h.1, h.2⟩
  have hlow : 0 < (newBudgetManager cfg).lowWatermarkFrac ∧
      (newBudgetManager cfg).lowWatermarkFrac ≤ 1 := by
    rw [nBM_low]
    split_ifs with h
    · constructor <;> norm_num [defaultLowWatermark]
    · push_neg at h
      exact ⟨h.1, le_trans (le_of_lt h.2) hhigh.2⟩
  refine ⟨?_, hhigh.1, hhigh.2, hlow.1, hlow.2, ?_, ?_⟩
  · rw [nBM_numCtx]
    split_ifs with h <;> [norm_num [defaultNumCtx]; omega]
  · rw [nBM_reserve]
    split_ifs with h <;> [norm_num [defaultReserveOutput]; omega]
  · rw [nBM_turns]
    split_ifs with h <;> [norm_num [defaultMaxTranscriptLen]; omega]

/-- Config with a small window and dyadic ratios 0.75/0.5, both exactly
representable in float64, on which truncation collapses the watermarks. -/
def c4TruncCfg : BudgetConfig :=
  { numCtx := 2, highWatermarkFrac := 3 / 4, lowWatermarkFrac := 1 / 2,
    reserveOutputTokens := 2048, maxTranscriptTurns := 5 }

/-- Config whose low ratio is invalid (0.7 ≥ high 0.5), so the clamp
replaces it with the default 0.60 — which still exceeds the high ratio. -/
def c4ClampCfg : BudgetConfig :=
  { numCtx := 8192, highWatermarkFrac := 1 / 2, lowWatermarkFrac := 7 / 10,
    reserveOutputTokens := 2048, maxTranscriptTurns := 5 }

theorem c4TruncCfg_clamp : newBudgetManager c4TruncCfg = c4TruncCfg := by
  unfold newBudgetManager c4TruncCfg
  norm_num

theorem c4ClampCfg_clamp :
    newBudgetManager c4ClampCfg =
      { numCtx := 8192, highWatermarkFrac := 1 / 2, lowWatermarkFrac := 3 / 5,
        reserveOutputTokens := 2048, maxTranscriptTurns := 5 } := by
  unfold newBudgetManager c4ClampCfg defaultLowWatermark
  norm_num

/-- C4 counterexample: the documented clamping does not make the strict
chain `0 < low_watermark < high_watermark` true for every config.  With
`num_ctx = 2`, ratios 0.75/0.5 (a config the clamping leaves untouched),
both watermarks truncate to 1, so `low < high` fails; and with a valid high
ratio 0.5 and an invalid low ratio 0.7, the clamp to the default 0.60
leaves `low_ratio > high_ratio`, making `low_watermark` (4915) exceed
`high_watermark` (4096). -/
theorem claim_C4_counterexample :
    ((getState (newBudgetManager c4TruncCfg) 0 0).lowWatermark = 1 ∧
      (getState (newBudgetManager c4TruncCfg) 0 0).highWatermark = 1 ∧
      ¬ ((getState (newBudgetManager c4TruncCfg) 0 0).lowWatermark <
          (getState (newBudgetManager c4TruncCfg) 0 0).highWatermark)) ∧
    ((getState (newBudgetManager c4ClampCfg) 0 0).lowWatermark = 4915 ∧
      (getState (newBudgetManager c4ClampCfg) 0 0).highWatermark = 4096 ∧
      ¬ ((getState (newBudgetManager c4ClampCfg) 0 0).lowWatermark ≤
          (getState (newBudgetManager c4ClampCfg) 0 0).highWatermark)) := by
  have h1 : goInt (((2 : Int) : ℚ) * (3 / 4)) = 1 := by
    rw [goInt_eq_floor _ (by norm_num)]
    norm_num [Int.floor_eq_iff]
  have h2 : goInt (((2 : Int) : ℚ) * (1 / 2)) = 1 := by
    rw [goInt_eq_floor _ (by norm_num)]
    norm_num
  have h3 : goInt (((8192 : Int) : ℚ) * (3 / 5)) = 4915 := by
    rw [goInt_eq_floor _ (by norm_num)]
    norm_num [Int.floor_eq_iff]
  have h4 : goInt (((8192 : Int) : ℚ) * (1 / 2)) = 4096 := by
    rw [goInt_eq_floor _ (by norm_num)]
    norm_num
  rw [c4TruncCfg_clamp, c4ClampCfg_clamp]
  simp only [getState, c4TruncCfg]
  rw [h1, h2, h3, h4]
  norm_num

/-- Example config from the claim: `num_ctx = 10000`, ratios 0.8/0.6. -/
def c4ExampleCfg : BudgetConfig :=
  { numCtx := 10000, highWatermarkFrac := 4 / 5, lowWatermarkFrac := 3 / 5,
    reserveOutputTokens := 2048, maxTranscriptTurns := 5 }

theorem c4ExampleCfg_clamp : newBudgetManager c4ExampleCfg = c4ExampleCfg := by
  unfold newBudgetManager c4ExampleCfg
  norm_num

/-- C4 (amended): after clamping, the state satisfies the non-strict chain
`0 ≤ low_watermark ≤ num_ctx` and `0 ≤ high_watermark ≤ num_ctx`, and
`needs_compaction` holds iff `last_prompt_tokens ≥ high_watermark`; the
strict ordering `0 < low < high` of the claim can fail because the
watermarks are computed by float truncation and because the low-ratio clamp
does not re-establish `low < high`.  The claim's example holds: with
`num_ctx = 10000` and ratios 0.8/0.6, prompt 8000 gives
`needs_compaction = true` and `TokensToFree() = 2000`, and prompt 7000
gives `needs_compaction = false`. -/
theorem claim_C4_budget_state (cfg : BudgetConfig) (p e : Int) :
    (0 ≤ (getState (newBudgetManager cfg) p e).lowWatermark ∧
      (getState (newBudgetManager cfg) p e).lowWatermark ≤
        (getState (newBudgetManager cfg) p e).numCtx ∧
      0 ≤ (getState (newBudgetManager cfg) p e).highWatermark ∧
      (getState (newBudgetManager cfg) p e).highWatermark ≤
        (getState (newBudgetManager cfg) p e).numCtx) ∧
    ((getState (newBudgetManager cfg) p e).needsCompaction = true ↔
      (getState (newBudgetManager cfg) p e).highWatermark ≤ p) ∧
    ((getState (newBudgetManager c4ExampleCfg) 8000 0).needsCompaction = true ∧
      tokensToFree (newBudgetManager c4ExampleCfg) 8000 = 2000 ∧
      (getState (newBudgetManager c4ExampleCfg) 7000 0).needsCompaction = false) := by
  obtain ⟨hn, hh1, hh2, hl1, hl2, _, _⟩ := newBudgetManager_valid cfg
  have hn0 : (0 : ℚ) ≤ ((newBudgetManager cfg).numCtx : ℚ) := by exact_mod_cast le_of_lt hn
  have hhigh8 : goInt (((10000 : Int) : ℚ) * (4 / 5)) = 8000 := by
    rw [goInt_eq_floor _ (by norm_num)]
    norm_num
  have hlow6 : goInt (((10000 : Int) : ℚ) * (3 / 5)) = 6000 := by
    rw [goInt_eq_floor _ (by norm_num)]
    norm_num
  refine ⟨⟨?_, ?_, ?_, ?_⟩, ?_, ?_, ?_, ?_⟩
  · exact goInt_nonneg _ (mul_nonneg hn0 (le_of_lt hl1))
  · simp only [getState]
    exact goInt_le_int _ _ (mul_nonneg hn0 (le_of_lt hl1))
      (by calc ((newBudgetManager cfg).numCtx : ℚ) * (newBudgetManager cfg).lowWatermarkFrac
            ≤ ((newBudgetManager cfg).numCtx : ℚ) * 1 :=
              mul_le_mul_of_nonneg_left hl2 hn0
          _ = ((newBudgetManager cfg).numCtx : ℚ) := mul_one _)
  · exact goInt_nonneg _ (mul_nonneg hn0 (le_of_lt hh1))
  · simp only [getState]
    exact goInt_le_int _ _ (mul_nonneg hn0 (le_of_lt hh1))
      (by calc ((newBudgetManager cfg).numCtx : ℚ) * (newBudgetManager cfg).highWatermarkFrac
            ≤ ((newBudgetManager cfg).numCtx : ℚ) * 1 :=
              mul_le_mul_of_nonneg_left hh2 hn0
          _ = ((newBudgetManager cfg).numCtx : ℚ) := mul_one _)
  · simp [getState]
  · rw [c4ExampleCfg_clamp]
    simp only [getState, c4ExampleCfg, decide_eq_true_eq]
    rw [hhigh8]
  · rw [c4ExampleCfg_clamp]
    simp only [tokensToFree, c4ExampleCfg]
    rw [hlow6]
    norm_num
  · rw [c4ExampleCfg_clamp]
    simp only [getState, c4ExampleCfg, decide_eq_false_iff_not]
    rw [hhigh8]
    norm_num

/-- Models the `Message` struct of the context package (part_007): role and
content only. -/
structure Message where
  role : List Char
  content : List Char
deriving DecidableEq

/-- ASCII whitespace trimmed by Go `strings.TrimSpace` (the inputs handled
here contain no non-ASCII Unicode white space). -/
def isSpaceChar (c : Char) : Bool :=
  c = ' ' ∨ c = Char.ofNat 9 ∨ c = nl ∨ c = Char.ofNat 11 ∨
    c = Char.ofNat 12 ∨ c = Char.ofNat 13

/-- Models Go `strings.TrimSpace` on ASCII data. -/
def goTrimSpace (s : List Char) : List Char :=
  ((s.dropWhile isSpaceChar).reverse.dropWhile isSpaceChar).reverse

/-- Models `truncateStr` (part_007): strings longer than `maxLen` are cut to
`maxLen - 3` characters plus an ellipsis, or hard-cut when `maxLen ≤ 3`. -/
def truncateStr (s : List Char) (maxLen : Int) : List Char :=
  if (s.length : Int) ≤ maxLen then s
  else if maxLen ≤ 3 then s.take maxLen.toNat
  else s.take (maxLen - 3).toNat ++ str "..."

/-- Prefix markers that make a line of an assistant message a key action. -/
def keyActionMarkers : List (List Char) :=
  [str "Objective:", str "Goal:", str "RUN:", str "EXECUTING:"]

/-- Loop of `extractKeyAction`: first line whose trimmed form starts with a
marker, truncated to 80 characters; empty when none matches. -/
def extractKeyActionLoop : List (List Char) → List Char
  | [] => []
  | l :: rest =>
    let line := goTrimSpace l
    if keyActionMarkers.any (fun m => List.isPrefixOf m line) then truncateStr line 80
    else extractKeyActionLoop rest

/-- Models `extractKeyAction` (part_007). -/
def extractKeyAction (content : List Char) : List Char :=
  extractKeyActionLoop (splitChar nl content)

/-- Models `Compactor.CompactTranscript` (part_007) with `maxTurns` the
value obtained from the budget manager (or the compactor config when no
manager is attached).  Returns the compacted message list and the summary
string. -/
def compactTranscript (maxTurns : Int) (messages : List Message) (keepSystemMsg : Bool) :
    List Message × List Char :=
  match messages with
  | [] => ([], [])
  | m0 :: _ =>
    let sys := keepSystemMsg && (m0.role == str "system")
    let startIdx : Int := if sys then 1 else 0
    let maxMessages : Int := if sys then maxTurns * 2 + 1 else maxTurns * 2
    if (messages.length : Int) ≤ maxMessages then (messages, [])
    else
      let removedCount := (messages.length : Int) - maxMessages
      let removed := (messages.drop startIdx.toNat).take removedCount.toNat
      let bullets := removed.foldl
        (fun acc msg =>
          if msg.role == str "assistant" then
            let action := extractKeyAction msg.content
            if action ≠ [] then acc ++ str "- " ++ action ++ [nl] else acc
          else acc) []
      let summary := str "[Transcript compacted: " ++ goIntStr removedCount ++
        str " earlier messages removed]" ++ [nl] ++ bullets
      let kept := (if sys then [m0] else []) ++
        messages.drop (((messages.length : Int) - maxMessages + startIdx).toNat)
      (kept, summary)

/-- Last `n` elements of a list, in order. -/
def lastN (n : Nat) (l : List α) : List α := l.drop (l.length - n)

/-- The 11-message example transcript of the claim. -/
def c5Example : List Message :=
  [⟨str "system", str "sys"⟩,
   ⟨str "user", str "u1"⟩, ⟨str "assistant", str "a1"⟩,
   ⟨str "user", str "u2"⟩, ⟨str "assistant", str "a2"⟩,
   ⟨str "user", str "u3"⟩, ⟨str "assistant", str "a3"⟩,
   ⟨str "user", str "u4"⟩, ⟨str "assistant", str "a4"⟩,
   ⟨str "user", str "u5"⟩, ⟨str "assistant", str "a5"⟩]

/-- C5: with `keep_system = true` and a leading system message,
`CompactTranscript` returns the system message unchanged followed by the
last `min(len-1, 2·max_turns)` messages in order; on the 11-message example
with `max_turns = 3` the result is `[system, u3, a3, u4, a4, u5, a5]` and
the summary starts with `[Transcript compacted: 4 earlier messages
removed]`. -/
theorem claim_C5_compact_transcript (maxTurns : Int) (msgs : List Message) (m0 : Message)
    (hhead : msgs.head? = some m0) (hrole : m0.role = str "system") (hpos : 0 < maxTurns) :
    (compactTranscript maxTurns msgs true).1 =
      m0 :: lastN (min (msgs.length - 1) (2 * maxTurns).toNat) msgs ∧
    (compactTranscript 3 c5Example true).1 =
      [⟨str "system", str "sys"⟩,
       ⟨str "user", str "u3"⟩, ⟨str "assistant", str "a3"⟩,
       ⟨str "user", str "u4"⟩, ⟨str "assistant", str "a4"⟩,
       ⟨str "user", str "u5"⟩, ⟨str "assistant", str "a5"⟩] ∧
    List.isPrefixOf (str "[Transcript compacted: 4 earlier messages removed]")
      (compactTranscript 3 c5Example true).2 = true := by
  refine ⟨?_, by decide, by decide⟩
  cases msgs with
  | nil => cases hhead
  | cons a rest =>
  obtain rfl : a = m0 := by simpa using hhead
  unfold compactTranscript
  dsimp only
  have hbeq : (a.role == str "system") = true := by
    rw [hrole]
    exact beq_self_eq_true _
  rw [hbeq]
  simp only [Bool.and_self, if_true, Bool.true_and]
  have hlen : (a :: rest).length = rest.length + 1 := rfl
  split_ifs with hle
  · have hmin : min ((a :: rest).length - 1) (2 * maxTurns).toNat =
        (a :: rest).length - 1 := by
      rw [hlen] at hle ⊢
      push_cast at hle
      omega
    rw [hmin]
    unfold lastN
    rw [hlen]
    simp
  · have hmin : min ((a :: rest).length - 1) (2 * maxTurns).toNat =
        (2 * maxTurns).toNat := by
      rw [hlen] at hle ⊢
      push_cast at hle
      omega
    rw [hmin]
    unfold lastN
    have harith : (((a :: rest).length : Int) - (maxTurns * 2 + 1) + 1).toNat =
        (a :: rest).length - (2 * maxTurns).toNat := by
      rw [hlen]
      push_cast at hle ⊢
      omega
    rw [harith]
    rfl

/-- Witness for C5 on the example transcript with `max_turns = 3`. -/
theorem claim_C5_witness :
    c5Example.head? = some ⟨str "system", str "sys"⟩ ∧
    (⟨str "system", str "sys"⟩ : Message).role = str "system" ∧
    (0 : Int) < 3 ∧
    ((compactTranscript 3 c5Example true).1 =
        ⟨str "system", str "sys"⟩ ::
          lastN (min (c5Example.length - 1) ((2 * 3 : Int)).toNat) c5Example ∧
      (compactTranscript 3 c5Example true).1 =
        [⟨str "system", str "sys"⟩,
         ⟨str "user", str "u3"⟩, ⟨str "assistant", str "a3"⟩,
         ⟨str "user", str "u4"⟩, ⟨str "assistant", str "a4"⟩,
         ⟨str "user", str "u5"⟩, ⟨str "assistant", str "a5"⟩] ∧
      List.isPrefixOf (str "[Transcript compacted: 4 earlier messages removed]")
        (compactTranscript 3 c5Example true).2 = true) :=
  ⟨by decide, by decide, by decide,
    claim_C5_compact_transcript 3 c5Example ⟨str "system", str "sys"⟩
      (by decide) (by decide) (by decide)⟩

/-- Models the `Task` struct of internal/context/taskstore.go.  Status and
category are Go string types; times are Unix nanoseconds, with 0 playing
the role of the zero `time.Time`. -/
structure Task where
  id : List Char
  title : List Char
  description : List Char
  priority : Int
  status : List Char
  category : List Char
  files : List (List Char)
  evidenceLogs : List (List Char)
  nextAction : List Char
  attempts : Int
  source : List Char
  createdAt : Int
  updatedAt : Int
  completedAt : Option Int
deriving DecidableEq

/-- The terminal-status test of `TaskStore.SetTaskStatus`. -/
def isTerminalStatus (status : List Char) : Bool :=
  status == str "completed" || status == str "failed" || status == str "skipped"

/-- Models the mutator closure `SetTaskStatus` passes to `UpdateTask`: set
the status, and set `CompletedAt` to the current time when the new status
is terminal; a non-terminal status leaves `CompletedAt` untouched. -/
def setTaskStatusMut (status : List Char) (now : Int) (t : Task) : Task :=
  let t := { t with status := status }
  if isTerminalStatus status then { t with completedAt := some now } else t

/-- Models `TaskStore.UpdateTask` with the store's id-keyed map rendered as
a list of tasks with distinct ids: mutate the matching task and stamp its
`UpdatedAt`, or fail when no task has the id.  `now` stands for
`time.Now()`. -/
def updateTask (tasks : List Task) (id : List Char) (mutate : Task → Task) (now : Int) :
    Except (List Char) (List Task) :=
  if tasks.any (fun t => t.id == id) then
    .ok (tasks.map (fun t => if t.id == id then { mutate t with updatedAt := now } else t))
  else
    .error (str "task not found: " ++ id)

/-- Models `TaskStore.SetTaskStatus`. -/
def setTaskStatus (tasks : List Task) (id status : List Char) (now : Int) :
    Except (List Char) (List Task) :=
  updateTask tasks id (setTaskStatusMut status now) now

/-- A pending task used by the C9 counterexample. -/
def c9Task : Task :=
  { id := str "t1", title := str "fix build", description := [],
    priority := 2, status := str "pending", category := str "build",
    files := [], evidenceLogs := [], nextAction := [],
    attempts := 0, source := str "user",
    createdAt := 1, updatedAt := 1, completedAt := none }

/-- `c9Task` after `SetTaskStatus("t1", completed)` at time 5. -/
def c9TaskDone : Task :=
  { c9Task with status := str "completed", completedAt := some 5, updatedAt := 5 }

/-- `c9TaskDone` after `SetTaskStatus("t1", pending)` at time 6: the status
is non-terminal again but `CompletedAt` still holds the old time. -/
def c9TaskReopened : Task :=
  { c9TaskDone with status := str "pending", updatedAt := 6 }

/-- C9 counterexample: transitioning a completed task back to `pending`
leaves `completed_at` set — no code path ever clears it — so after the
sequence add, complete (t=5), reopen (t=6) the task has a non-terminal
status and `completed_at = 5`, contradicting the claimed iff. -/
theorem claim_C9_counterexample :
    setTaskStatus [c9Task] (str "t1") (str "completed") 5 = .ok [c9TaskDone] ∧
    setTaskStatus [c9TaskDone] (str "t1") (str "pending") 6 = .ok [c9TaskReopened] ∧
    isTerminalStatus c9TaskReopened.status = false ∧
    c9TaskReopened.completedAt = some 5 := by
  refine ⟨by rfl, by rfl, by decide, by decide⟩

/-- C9 (amended): `SetTaskStatus` to a terminal status (completed, failed,
skipped) sets `completed_at` to the transition time, while `SetTaskStatus`
to a non-terminal status leaves `completed_at` unchanged rather than
clearing it; hence `completed_at` being set means the task reached a
terminal status at some point, not that its current status is terminal. -/
theorem claim_C9_completed_at (t : Task) (status : List Char) (now : Int) :
    (setTaskStatusMut status now t).status = status ∧
    (setTaskStatusMut status now t).completedAt =
      (if isTerminalStatus status = true then some now else t.completedAt) ∧
    (setTaskStatusMut status now t).id = t.id ∧
    (setTaskStatusMut status now t).attempts = t.attempts := by
  unfold setTaskStatusMut
  dsimp only
  split_ifs with h <;> simp_all

end Ctx

namespace Ollama

/-- Models Go `strings.ToLower` on the ASCII model names handled here. -/
def goToLower (s : List Char) : List Char := s.map Char.toLower

/-- Opening brace character (written by code point to keep braces out of
string literals). -/
def lbrace : Char := Char.ofNat 123

/-- Closing brace character. -/
def rbrace : Char := Char.ofNat 125

/-- Hex digit for a value below 16, lowercase as Go's encoder emits. -/
def hexDigit (n : Nat) : Char :=
  if n < 10 then Char.ofNat (48 + n) else Char.ofNat (87 + n)

/-- Models encoding/json's escaping of one character inside a string
literal (default HTML-escaping encoder), for the ASCII range. -/
def jsonEscapeChar (c : Char) : List Char :=
  if c = '"' then ['\\', '"']
  else if c = '\\' then ['\\', '\\']
  else if c = nl then ['\\', 'n']
  else if c = Char.ofNat 13 then ['\\', 'r']
  else if c = Char.ofNat 9 then ['\\', 't']
  else if c = '<' then str "\\u003c"
  else if c = '>' then str "\\u003e"
  else if c = '&' then str "\\u0026"
  else if c.toNat < 32 then
    str "\\u00" ++ [hexDigit (c.toNat / 16), hexDigit (c.toNat % 16)]
  else [c]

/-- Models `json.Marshal` of a Go string. -/
def jsonString (s : List Char) : List Char :=
  '"' :: s.flatMap jsonEscapeChar ++ ['"']

/-- Models the `ToolFunction` struct (part_001). -/
structure ToolFunction where
  name : List Char
  arguments : List Char
deriving DecidableEq

/-- Models the `ToolCall` struct. -/
structure ToolCall where
  function : ToolFunction
deriving DecidableEq

/-- Models the `Message` struct of the ollama package: `thinking` and
`tool_calls` carry `omitempty` JSON tags. -/
structure Message where
  role : List Char
  content : List Char
  thinking : List Char
  toolCalls : List ToolCall
deriving DecidableEq

/-- Models `json.Marshal` of one `ToolCall`
(`{"function":{"name":…,"arguments":…}}`; the raw arguments are embedded
verbatim). -/
def renderToolCall (tc : ToolCall) : List Char :=
  [lbrace] ++ str "\"function\":" ++ [lbrace] ++ str "\"name\":" ++
    jsonString tc.function.name ++ str ",\"arguments\":" ++ tc.function.arguments ++
    [rbrace, rbrace]

/-- Renders a JSON array from rendered elements. -/
def jsonArray (elems : List (List Char)) : List Char :=
  '[' :: List.intercalate (str ",") elems ++ [']']

/-- Models `json.Marshal` of a `Message`: `role` and `content` always
appear; `thinking` and `tool_calls` are omitted when empty. -/
def renderMessage (m : Message) : List Char :=
  [lbrace] ++ str "\"role\":" ++ jsonString m.role ++
    str ",\"content\":" ++ jsonString m.content ++
    (if m.thinking = [] then [] else str ",\"thinking\":" ++ jsonString m.thinking) ++
    (if m.toolCalls = [] then []
     else str ",\"tool_calls\":" ++ jsonArray (m.toolCalls.map renderToolCall)) ++
    [rbrace]

/-- Models the `ThinkMode` setting (a Go string type with six constant
values). -/
inductive ThinkMode where
  | auto
  | on
  | off
  | low
  | medium
  | high
deriving DecidableEq

/-- Models the `ThinkValue` wrapper: a boolean or a level string. -/
inductive ThinkVal where
  | b (v : Bool)
  | s (v : List Char)
deriving DecidableEq

/-- Models `ThinkValue.MarshalJSON`: `json.Marshal` of the wrapped bool or
string. -/
def renderThinkVal : ThinkVal → List Char
  | .b true => str "true"
  | .b false => str "false"
  | .s v => jsonString v

/-- The thinking-capable model-name patterns of `Client.IsThinkingCapable`. -/
def thinkingModels : List (List Char) :=
  [str "deepseek", str "qwq", str "gpt-oss", str "thinking", str "reason",
   str "o1", str "o3"]

/-- Models `Client.IsThinkingCapable` for a client whose current model is
`model`: a case-insensitive substring test against the known patterns. -/
def isThinkingCapable (model : List Char) : Bool :=
  thinkingModels.any (fun p => goContains (goToLower model) p)

/-- Models `Client.buildThinkValue` for the given mode and current model:
explicit modes map directly; auto prefers the gpt-oss `"medium"` answer,
then thinking-capable `true`, and otherwise omits the field. -/
def buildThinkValue (mode : ThinkMode) (model : List Char) : Option ThinkVal :=
  match mode with
  | .off => some (.b false)
  | .on => some (.b true)
  | .low => some (.s (str "low"))
  | .medium => some (.s (str "medium"))
  | .high => some (.s (str "high"))
  | .auto =>
    if goContains (goToLower model) (str "gpt-oss") then some (.s (str "medium"))
    else if isThinkingCapable model then some (.b true)
    else none

/-- C6: think-value marshalling follows the mode table — on→true,
off→false, low/medium/high→the level strings; auto resolves to `"medium"`
exactly for models containing `gpt-oss` (case-insensitively), to `true`
exactly for other thinking-capable models (lowercased name containing
deepseek, qwq, thinking, reason, o1 or o3), and is omitted otherwise; in
particular model `deepseek-r1` in auto mode marshals `think` as `true`. -/
theorem claim_C6_think_value (model : List Char) :
    buildThinkValue .on model = some (.b true) ∧
    buildThinkValue .off model = some (.b false) ∧
    buildThinkValue .low model = some (.s (str "low")) ∧
    buildThinkValue .medium model = some (.s (str "medium")) ∧
    buildThinkValue .high model = some (.s (str "high")) ∧
    (buildThinkValue .auto model = some (.s (str "medium")) ↔
      goContains (goToLower model) (str "gpt-oss") = true) ∧
    (buildThinkValue .auto model = some (.b true) ↔
      (goContains (goToLower model) (str "gpt-oss") = false ∧
        isThinkingCapable model = true)) ∧
    (buildThinkValue .auto model = none ↔
      (goContains (goToLower model) (str "gpt-oss") = false ∧
        isThinkingCapable model = false)) ∧
    buildThinkValue .auto (str "deepseek-r1") = some (.b true) ∧
    renderThinkVal (.b true) = str "true" := by
  refine ⟨rfl, rfl, rfl, rfl, rfl, ?_, ?_, ?_, by decide, by decide⟩ <;>
    by_cases hg : goContains (goToLower model) (str "gpt-oss") = true <;>
    by_cases hc : isThinkingCapable model = true <;>
    simp_all [buildThinkValue]

/-- The `knownModelContextSizes` table (part_001), in source order. -/
def knownModelContextSizes : List (List Char × Int) :=
  [(str "gemini", 1048576),
   (str "gemini-2.0-flash", 1048576),
   (str "gemini-2.5-flash", 1048576),
   (str "gemini-3-flash", 1048576),
   (str "gemini-3-flash-preview", 1048576),
   (str "gpt-4o", 128000),
   (str "gpt-4o-mini", 128000),
   (str "gpt-4-turbo", 128000),
   (str "claude-3", 200000),
   (str "claude-3.5", 200000),
   (str "claude-3-opus", 200000),
   (str "claude-3-sonnet", 200000),
   (str "claude-3.5-sonnet", 200000),
   (str "claude-4-sonnet", 200000),
   (str "llama3", 8192),
   (str "llama3.1", 131072),
   (str "llama3.2", 131072),
   (str "llama3.3", 131072),
   (str "llama2", 4096),
   (str "mistral", 32768),
   (str "mixtral", 32768),
   (str "codellama", 16384),
   (str "deepseek", 65536),
   (str "deepseek-coder", 65536),
   (str "deepseek-r1", 131072),
   (str "qwen", 32768),
   (str "qwen2", 131072),
   (str "qwen2.5", 131072),
   (str "qwen3", 131072),
   (str "phi3", 131072),
   (str "phi4", 16384),
   (str "command-r", 131072),
   (str "command-r-plus", 131072)]

/-- Index of the first `:` in a model name, or −1 — Go
`strings.Index(model, ":")`. -/
def goIndexColon (model : List Char) : Int :=
  match model.findIdx? (fun c => c = ':') with
  | some i => (i : Int)
  | none => -1

/-- The base-name normalisation of `LookupModelContextSize`: drop a `:tag`
suffix when the colon is past position 0, then lowercase. -/
def normalizeModelName (model : List Char) : List Char :=
  let idx := goIndexColon model
  goToLower (if idx > 0 then model.take idx.toNat else model)

/-- Models `LookupModelContextSize` with the Go map's `range` iteration
order made explicit: `order` is the (runtime-randomised) order in which the
prefix loop visits the table entries; the exact-match map lookup itself is
order-independent. -/
def lookupModelContextSizeOrder (order : List (List Char × Int)) (model : List Char) : Int :=
  if model = [] then 8192
  else
    let baseName := normalizeModelName model
    match knownModelContextSizes.find? (fun kv => kv.1 == baseName) with
    | some kv => kv.2
    | none =>
      match order.find? (fun kv => List.isPrefixOf kv.1 baseName) with
      | some kv => kv.2
      | none =>
        if goContains (goToLower model) (str ":cloud") then 131072 else 8192

/-- A legal iteration order that visits `llama3.1` first: the Go runtime
randomises map range order, so any permutation of the table can occur. -/
def c7AltOrder : List (List Char × Int) :=
  (str "llama3.1", 131072) ::
    knownModelContextSizes.filter (fun kv => ¬ (kv.1 == str "llama3.1"))

/-- C7 counterexample: for model `llama3.1-custom` both `llama3` (8192) and
`llama3.1` (131072) are prefix matches; the prefix loop returns whichever
the map's randomised range order yields first, so two legal iteration
orders give different results — the lookup is not a deterministic function
of the model name and does not pick the longest matching prefix. -/
theorem claim_C7_counterexample :
    List.Perm c7AltOrder knownModelContextSizes ∧
    lookupModelContextSizeOrder knownModelContextSizes (str "llama3.1-custom") = 8192 ∧
    lookupModelContextSizeOrder c7AltOrder (str "llama3.1-custom") = 131072 := by
  refine ⟨by decide, by decide, by decide⟩

/-- C7 (amended): the lookup lowercases the name and strips a `:tag` suffix
(when the colon is not at position 0), tries an exact table match first
(deterministically), and then scans the table in the map's iteration
order, returning the FIRST entry whose key prefixes the base name — an
arbitrary matching entry, not necessarily the longest; with no matching
entry it returns 131072 when the name contains `:cloud` and 8192 otherwise
(and 8192 for the empty name).  The result is deterministic only up to the
choice among the sizes of prefix-matching keys. -/
theorem claim_C7_lookup (order : List (List Char × Int)) (model : List Char)
    (hperm : List.Perm order knownModelContextSizes) :
    (model = [] → lookupModelContextSizeOrder order model = 8192) ∧
    (model ≠ [] →
      ∀ kv, knownModelContextSizes.find? (fun e => e.1 == normalizeModelName model) = some kv →
        lookupModelContextSizeOrder order model = kv.2) ∧
    (model ≠ [] →
      knownModelContextSizes.find? (fun e => e.1 == normalizeModelName model) = none →
      (∃ kv, kv ∈ knownModelContextSizes ∧
          List.isPrefixOf kv.1 (normalizeModelName model) = true ∧
          lookupModelContextSizeOrder order model = kv.2) ∨
        ((∀ kv, kv ∈ knownModelContextSizes →
            List.isPrefixOf kv.1 (normalizeModelName model) = false) ∧
          lookupModelContextSizeOrder order model =
            (if goContains (goToLower model) (str ":cloud") then 131072 else 8192))) := by
  refine ⟨?_, ?_, ?_⟩
  · intro h
    simp [lookupModelContextSizeOrder, h]
  · intro hne kv hfind
    simp only [lookupModelContextSizeOrder, if_neg hne, hfind]
  · intro hne hfind
    simp only [lookupModelContextSizeOrder, if_neg hne, hfind]
    cases hscan : order.find? (fun kv => List.isPrefixOf kv.1 (normalizeModelName model)) with
    | some kv =>
      left
      refine ⟨kv, ?_, ?_, rfl⟩
      · exact hperm.mem_iff.1 (List.mem_of_find?_eq_some hscan)
      · have := List.find?_some hscan
        simpa using this
    | none =>
      right
      refine ⟨?_, rfl⟩
      intro kv hkv
      have hnone := List.find?_eq_none.1 hscan kv (hperm.mem_iff.2 hkv)
      rw [← Bool.not_eq_true]
      exact hnone

/-- Witness for C7 (amended) at the identity iteration order and model
`llama3:8b` (exact match `llama3` after tag stripping). -/
theorem claim_C7_witness :
    List.Perm knownModelContextSizes knownModelContextSizes ∧
    ((str "llama3:8b" : List Char) = [] →
      lookupModelContextSizeOrder knownModelContextSizes (str "llama3:8b") = 8192) ∧
    ((str "llama3:8b" : List Char) ≠ [] →
      ∀ kv, knownModelContextSizes.find?
          (fun e => e.1 == normalizeModelName (str "llama3:8b")) = some kv →
        lookupModelContextSizeOrder knownModelContextSizes (str "llama3:8b") = kv.2) ∧
    ((str "llama3:8b" : List Char) ≠ [] →
      knownModelContextSizes.find?
          (fun e => e.1 == normalizeModelName (str "llama3:8b")) = none →
      (∃ kv, kv ∈ knownModelContextSizes ∧
          List.isPrefixOf kv.1 (normalizeModelName (str "llama3:8b")) = true ∧
          lookupModelContextSizeOrder knownModelContextSizes (str "llama3:8b") = kv.2) ∨
        ((∀ kv, kv ∈ knownModelContextSizes →
            List.isPrefixOf kv.1 (normalizeModelName (str "llama3:8b")) = false) ∧
          lookupModelContextSizeOrder knownModelContextSizes (str "llama3:8b") =
            (if goContains (goToLower (str "llama3:8b")) (str ":cloud")
              then 131072 else 8192))) :=
  ⟨List.Perm.refl _,
    claim_C7_lookup knownModelContextSizes (str "llama3:8b") (List.Perm.refl _)⟩

/-- Models `ChatOptions` on the ChatStream path, where only `NumCtx` is
ever set; the `Temperature` and `NumPredict` omitempty fields stay at their
zero values and are omitted from the serialisation. -/
structure ChatOptions where
  numCtx : Int
deriving DecidableEq

/-- Models the `ChatRequest` struct: model, messages, stream, optional
options, optional think value (omitempty pointers rendered as optionals). -/
structure ChatRequest where
  model : List Char
  messages : List Message
  stream : Bool
  options : Option ChatOptions
  think : Option ThinkVal
deriving DecidableEq

/-- Models `json.Marshal` of the `ChatRequest`, in struct field order. -/
def renderChatRequest (r : ChatRequest) : List Char :=
  [lbrace] ++ str "\"model\":" ++ jsonString r.model ++
    str ",\"messages\":" ++ jsonArray (r.messages.map renderMessage) ++
    str ",\"stream\":" ++ (if r.stream then str "true" else str "false") ++
    (match r.options with
     | none => []
     | some o => str ",\"options\":" ++
         ([lbrace] ++ str "\"num_ctx\":" ++ goIntStr o.numCtx ++ [rbrace])) ++
    (match r.think with
     | none => []
     | some v => str ",\"think\":" ++ renderThinkVal v) ++
    [rbrace]

/-- The configuration of a `Client` that `ChatStream` reads under lock. -/
structure Client where
  model : List Char
  numCtx : Int
  thinkMode : ThinkMode
deriving DecidableEq

/-- The exact no-model error message of `ChatStream`. -/
def noModelError : List Char :=
  str "no model selected; use SetModel() or set OLLAMA_MODEL"

/-- Models the content truncation of the trim loop in `ChatStream`:
contents longer than 2000 bytes keep their first 2000 bytes plus `...`. -/
def trimMessageContent (content : List Char) : List Char :=
  if (content.length : Int) > 2000 then content.take 2000 ++ str "..." else content

/-- Models one step of the trim loop: the outgoing message carries only the
role and the (possibly truncated) content; `Thinking` is intentionally
omitted and `ToolCalls` is left at its zero value. -/
def trimMessage (m : Message) : Message :=
  { role := m.role, content := trimMessageContent m.content,
    thinking := [], toolCalls := [] }

/-- Models the request assembly of `ChatStream`: trimmed messages,
`stream: true`, options only when a context override is set, think value
from the mode/model resolution. -/
def buildChatRequest (c : Client) (messages : List Message) : ChatRequest :=
  { model := c.model
    messages := messages.map trimMessage
    stream := true
    options := if c.numCtx > 0 then some { numCtx := c.numCtx } else none
    think := buildThinkValue c.thinkMode c.model }

/-- Models `ChatStream` up to the network send: fail with the literal
no-model error when no model is set, marshal the request, and refuse bodies
over 50000 bytes before sending; otherwise hand the marshalled body to the
HTTP layer. -/
def chatStreamPrepare (c : Client) (messages : List Message) :
    Except (List Char) (List Char) :=
  if c.model = [] then .error noModelError
  else
    let body := renderChatRequest (buildChatRequest c messages)
    if (body.length : Int) > 50000 then .error (str "request too large, reduce context")
    else .ok body

/-- C10: every message serialised into an outgoing chat request carries
exactly its role and content — content over 2000 bytes truncated to its
first 2000 bytes plus `...`, the thinking and tool_calls fields omitted —
and the marshalled body is rejected before the send whenever it exceeds
50000 bytes; the `deepseek-r1`/auto request from the spec's scenario
serialises `"think":true`. -/
theorem claim_C10_chat_stream_request (c : Client) (messages : List Message)
    (body : List Char) (hok : chatStreamPrepare c messages = .ok body) :
    (body = renderChatRequest (buildChatRequest c messages) ∧
      (body.length : Int) ≤ 50000) ∧
    (buildChatRequest c messages).messages = messages.map trimMessage ∧
    (∀ m : Message,
      (trimMessage m).role = m.role ∧
      (trimMessage m).thinking = [] ∧
      (trimMessage m).toolCalls = [] ∧
      (trimMessage m).content =
        (if (m.content.length : Int) > 2000 then m.content.take 2000 ++ str "..."
         else m.content) ∧
      renderMessage (trimMessage m) =
        [lbrace] ++ str "\"role\":" ++ jsonString m.role ++
          str ",\"content\":" ++ jsonString (trimMessageContent m.content) ++ [rbrace]) ∧
    (((renderChatRequest (buildChatRequest c messages)).length : Int) > 50000 →
      ∀ b, chatStreamPrepare c messages ≠ .ok b) ∧
    goContains
      (renderChatRequest (buildChatRequest
        { model := str "deepseek-r1", numCtx := 0, thinkMode := .auto } []))
      (str "\"think\":true") = true := by
  have hmodel : ¬ (c.model = []) := by
    intro hm
    rw [chatStreamPrepare, if_pos hm] at hok
    cases hok
  rw [chatStreamPrepare, if_neg hmodel] at hok
  dsimp only at hok
  refine ⟨?_, rfl, ?_, ?_, by decide⟩
  · split at hok
    · cases hok
    · rename_i hlen
      injection hok with hb
      push_neg at hlen
      exact ⟨hb.symm, hb ▸ hlen⟩
  · intro m
    refine ⟨rfl, rfl, rfl, rfl, ?_⟩
    unfold renderMessage trimMessage
    dsimp only
    simp
  · intro hbig b hcontra
    rw [chatStreamPrepare, if_neg hmodel] at hcontra
    dsimp only at hcontra
    rw [if_pos hbig] at hcontra
    cases hcontra

/-- Witness for C10 with a one-message conversation on model `m`. -/
theorem claim_C10_witness :
    chatStreamPrepare { model := str "m", numCtx := 0, thinkMode := .off }
        [{ role := str "user", content := str "hi",
           thinking := str "t", toolCalls := [] }] =
      .ok (renderChatRequest (buildChatRequest
        { model := str "m", numCtx := 0, thinkMode := .off }
        [{ role := str "user", content := str "hi",
           thinking := str "t", toolCalls := [] }])) ∧
    ((renderChatRequest (buildChatRequest
        { model := str "m", numCtx := 0, thinkMode := .off }
        [{ role := str "user", content := str "hi",
           thinking := str "t", toolCalls := [] }]) =
      renderChatRequest (buildChatRequest
        { model := str "m", numCtx := 0, thinkMode := .off }
        [{ role := str "user", content := str "hi",
           thinking := str "t", toolCalls := [] }]) ∧
      ((renderChatRequest (buildChatRequest
        { model := str "m", numCtx := 0, thinkMode := .off }
        [{ role := str "user", content := str "hi",
           thinking := str "t", toolCalls := [] }])).length : Int) ≤ 50000) ∧
      (buildChatRequest
        { model := str "m", numCtx := 0, thinkMode := .off }
        [{ role := str "user", content := str "hi",
           thinking := str "t", toolCalls := [] }]).messages =
        [{ role := str "user", content := str "hi",
           thinking := str "t", toolCalls := [] }].map trimMessage ∧
      (∀ m : Message,
        (trimMessage m).role = m.role ∧
        (trimMessage m).thinking = [] ∧
        (trimMessage m).toolCalls = [] ∧
        (trimMessage m).content =
          (if (m.content.length : Int) > 2000 then m.content.take 2000 ++ str "..."
           else m.content) ∧
        renderMessage (trimMessage m) =
          [lbrace] ++ str "\"role\":" ++ jsonString m.role ++
            str ",\"content\":" ++ jsonString (trimMessageContent m.content) ++ [rbrace]) ∧
      (((renderChatRequest (buildChatRequest
          { model := str "m", numCtx := 0, thinkMode := .off }
          [{ role := str "user", content := str "hi",
             thinking := str "t", toolCalls := [] }])).length : Int) > 50000 →
        ∀ b, chatStreamPrepare { model := str "m", numCtx := 0, thinkMode := .off }
            [{ role := str "user", content := str "hi",
               thinking := str "t", toolCalls := [] }] ≠ .ok b) ∧
      goContains
        (renderChatRequest (buildChatRequest
          { model := str "deepseek-r1", numCtx := 0, thinkMode := .auto } []))
        (str "\"think\":true") = true) :=
  ⟨by rfl,
    claim_C10_chat_stream_request
      { model := str "m", numCtx := 0, thinkMode := .off }
      [{ role := str "user", content := str "hi",
         thinking := str "t", toolCalls := [] }]
      (renderChatRequest (buildChatRequest
        { model := str "m", numCtx := 0, thinkMode := .off }
        [{ role := str "user", content := str "hi",
           thinking := str "t", toolCalls := [] }]))
      (by rfl)⟩

end Ollama

end Brewol
